import Mathlib

/-!
RyFi USRP streaming engine (`src/usrp.cpp`, `src/usrp.h`).

A shallow embedding of the `USRP` class: the sample conversion applied on the two
data paths, the two worker loops `rxWorker` and `txWorker`, and the lifecycle
operations `start` and `stop`.

Modelling conventions.

* A `float`/`double` value is an element of an ordered field `α` with a floor function.
  Every finite IEEE value is a rational number, so `α := ℚ` runs the definitions; the
  theorems hold for every such field, `ℝ` included.  The only floating-point operations
  the code performs on samples are a multiplication and a division by `2048 = 2^11`,
  which are exact in binary floating point on the ranges considered.
* C `int` values are integers (`ℤ`); `count * 2` is computed without wrap-around, which
  agrees with C whenever the product is at most `INT_MAX`.  A statement about a count
  that is not bounded by the buffer size carries `count * 2 ≤ 2147483647` as a
  hypothesis.
* The hardware driver (UHD), the channel (`dsp::stream`) and `std::thread` are external
  collaborators.  Calls into them are recorded as events of a trace, in program order;
  what they return is supplied by an environment.
* A worker loop consumes one environment step per evaluation of its loop guard.  When
  the environment has no further step the worker is `blocked`: it has neither returned
  nor thrown.
-/

set_option linter.unusedSectionVars false

namespace RyFi

variable {α : Type} [LinearOrderedField α] [FloorRing α]

/-! ## Sample conversion -/

/-- Round to the nearest integer, a tie going to the even neighbour: `rintf` in the
default rounding mode. -/
def rint (r : α) : ℤ :=
  if r - (⌊r⌋ : ℤ) < 1 / 2 then ⌊r⌋
  else if 1 / 2 < r - (⌊r⌋ : ℤ) then ⌊r⌋ + 1
  else if ⌊r⌋ % 2 = 0 then ⌊r⌋ else ⌊r⌋ + 1

/-- Saturation to the range of `int16_t`. -/
def sat16 (z : ℤ) : ℤ :=
  if z > 32767 then 32767 else if z < -32768 then -32768 else z

/-- Modelled from the spec: one output element of the libvolk kernel
`volk_32f_s32f_convert_16i`, which is not part of this repository's sources.
Spec §4.4: `int16 = round(float * scale)` with saturation at the 16-bit range. -/
def convert_16i (x scalar : α) : ℤ :=
  sat16 (rint (x * scalar))

/-- Modelled from the spec: one output element of the libvolk kernel
`volk_16i_s32f_convert_32f`, which is not part of this repository's sources.
Spec §4.4: `float = int16 / scale`. -/
def convert_32f (s : ℤ) (scalar : α) : α :=
  (s : α) / scalar

/-- Modelled from the spec: the libvolk kernel `volk_32f_s32f_convert_16i`
(`outputVector, inputVector, scalar, num_points`), missing from the sources: the first
`num_points` floats of `inputVector` are converted element by element. -/
def volk_32f_s32f_convert_16i (inputVector : ℕ → α) (scalar : α) (num_points : ℕ) : List ℤ :=
  (List.range num_points).map (fun i => convert_16i (inputVector i) scalar)

/-- Modelled from the spec: the libvolk kernel `volk_16i_s32f_convert_32f`
(`outputVector, inputVector, scalar, num_points`), missing from the sources: the first
`num_points` 16-bit values of `inputVector` are converted element by element. -/
def volk_16i_s32f_convert_32f (inputVector : ℕ → ℤ) (scalar : α) (num_points : ℕ) : List α :=
  (List.range num_points).map (fun i => convert_32f (inputVector i) scalar)

/-! ## Outcomes -/

/-- How a function of the engine ends: it returns, an exception leaves it, the C++
runtime calls `std::terminate`, or (worker loops only) the environment has no further
observation to offer and the function is still inside its loop. -/
inductive Outcome (ε : Type) where
  | returned
  | threw (e : ε)
  | terminated
  | blocked
deriving DecidableEq

/-! ## Transmit worker -/

/-- The two burst flags of `uhd::tx_metadata_t` that `txWorker` sets. -/
structure tx_metadata_t where
  start_of_burst : Bool
  end_of_burst : Bool
deriving DecidableEq

/-- Calls `txWorker` makes on the input channel and on the TX streamer. -/
inductive TxEvent where
  | get_tx_stream
  | read (count : ℤ)
  | flush
  | send (buffs : List ℤ) (nsamps_per_buff : ℤ) (md : tx_metadata_t)
deriving DecidableEq

/-- What one evaluation of `while (running)` in `txWorker` observes: the value of
`running`, and, when the body is entered, the value `in->read()` returns together with
the floats then found in `in->readBuf` (interleaved I/Q). -/
structure TxStep (α : Type) where
  running : Bool
  count : ℤ
  readBuf : ℕ → α

/-- Environment of one run of `txWorker`: whether `dsp::buffer::alloc` returned a
non-null pointer, and the observations of the successive loop iterations. -/
structure TxEnv (α : Type) where
  samps : Bool
  steps : List (TxStep α)

/-- The loop `while (running) { ... }` of `txWorker` (usrp.cpp lines 115-135).
`Outcome.returned` means that control reaches the statement after the loop.
`st.count * 2` is the mathematical product: it is the value of the C expression of
line 121 exactly when it is at most `INT_MAX = 2147483647`; for a count from `2^30` on
the C product overflows and this definition says nothing about the code.  The theorems
below keep to that range: by `count * 2 ≤ bufferSize` for a block in flight, by an
explicit bound for the block that exceeds the buffer. -/
def txLoop (bufferSize : ℤ) (md : tx_metadata_t) :
    List (TxStep α) → List TxEvent × Outcome String
  | [] => ([], Outcome.blocked)
  | st :: rest =>
    if st.running = false then ([], Outcome.returned)
    else if st.count ≤ 0 then ([TxEvent.read st.count], Outcome.returned)
    else if st.count * 2 > bufferSize then
      ([TxEvent.read st.count], Outcome.threw "Buffer overflow detected")
    else
      (TxEvent.read st.count :: TxEvent.flush ::
        TxEvent.send (volk_32f_s32f_convert_16i st.readBuf 2048 (st.count * 2).toNat)
          st.count md :: (txLoop bufferSize md rest).1,
       (txLoop bufferSize md rest).2)

/-- The function `USRP::txWorker` (usrp.cpp lines 98-143).  `STREAM_BUFFER_SIZE` is a
constant of `dsp/stream.h`, which is not among the sources, and is a parameter.
`txWorker` is the function a `std::thread` is started on (usrp.cpp line 42), so
`Outcome.threw` here is an exception that nothing in that thread catches. -/
def txWorker (STREAM_BUFFER_SIZE : ℤ) (env : TxEnv α) : List TxEvent × Outcome String :=
  if env.samps = false then ([], Outcome.threw "Failed to allocate sample buffer")
  else
    match txLoop (STREAM_BUFFER_SIZE * 2) ⟨false, false⟩ env.steps with
    | (tr, Outcome.returned) =>
      (TxEvent.get_tx_stream :: (tr ++ [TxEvent.send [] 0 ⟨false, true⟩]), Outcome.returned)
    | (tr, o) => (TxEvent.get_tx_stream :: tr, o)

/-- The blocks handed to `tx_stream->send`, in order. -/
def sends : List TxEvent → List (List ℤ × ℤ × tx_metadata_t)
  | [] => []
  | TxEvent.send b n md :: tr => (b, n, md) :: sends tr
  | _ :: tr => sends tr

/-- A loop iteration of `txWorker` that runs to its end: `running` is observed true and
the count read is positive and fits the conversion buffer. -/
def TxStep.inFlight (bufferSize : ℤ) (st : TxStep α) : Prop :=
  st.running = true ∧ 0 < st.count ∧ st.count * 2 ≤ bufferSize

instance (bufferSize : ℤ) (st : TxStep α) : Decidable (st.inFlight bufferSize) :=
  inferInstanceAs (Decidable (st.running = true ∧ 0 < st.count ∧ st.count * 2 ≤ bufferSize))

/-- The events of one complete loop iteration of `txWorker`. -/
def TxStep.events (st : TxStep α) : List TxEvent :=
  [TxEvent.read st.count, TxEvent.flush,
   TxEvent.send (volk_32f_s32f_convert_16i st.readBuf 2048 (st.count * 2).toNat) st.count
     ⟨false, false⟩]

/-! ## Receive worker -/

/-- The two stream commands `rxWorker` issues. -/
inductive stream_mode_t where
  | STREAM_MODE_START_CONTINUOUS
  | STREAM_MODE_STOP_CONTINUOUS
deriving DecidableEq

/-- Calls `rxWorker` makes on the RX streamer and on the output channel.  `swap` carries
the floats written to `out.writeBuf` by the conversion and the sample count passed. -/
inductive RxEvent (α : Type) where
  | get_rx_stream
  | issue_stream_cmd (mode : stream_mode_t)
  | recv (nsamps_per_buff : ℤ) (timeout : α)
  | swap (writeBuf : List α) (size : ℕ)

/-- What one evaluation of `while (running)` in `rxWorker` observes: the value of
`running`, and, when the body is entered, the count `rx_stream->recv` returns, the
16-bit values then found in `samps` (interleaved I/Q) and the result of `out.swap`. -/
structure RxStep where
  running : Bool
  num_rx_samps : ℕ
  samps : ℕ → ℤ
  swap : Bool

/-- Conversion of a `double` to `int`: truncation toward zero. -/
def toInt (d : α) : ℤ :=
  if 0 ≤ d then ⌊d⌋ else ⌈d⌉

/-- The block size `int sampleCount = samplerate / 200` of `rxWorker` (usrp.cpp line 65). -/
def sampleCount (samplerate : α) : ℤ :=
  toInt (samplerate / 200)

/-- The loop `while (running) { ... }` of `rxWorker` (usrp.cpp lines 80-89). -/
def rxLoop (sampleCount : ℤ) : List RxStep → List (RxEvent α) × Outcome String
  | [] => ([], Outcome.blocked)
  | st :: rest =>
    if st.running = false then ([], Outcome.returned)
    else if st.swap = false then
      ([RxEvent.recv sampleCount 3.5,
        RxEvent.swap (volk_16i_s32f_convert_32f st.samps 2048 (st.num_rx_samps * 2))
          st.num_rx_samps], Outcome.returned)
    else
      (RxEvent.recv sampleCount 3.5 ::
        RxEvent.swap (volk_16i_s32f_convert_32f st.samps 2048 (st.num_rx_samps * 2))
          st.num_rx_samps :: (rxLoop sampleCount rest).1,
       (rxLoop sampleCount rest).2)

/-- The function `USRP::rxWorker` (usrp.cpp lines 64-96). -/
def rxWorker (samplerate : α) (env : List RxStep) : List (RxEvent α) × Outcome String :=
  match rxLoop (sampleCount samplerate) env with
  | (tr, Outcome.returned) =>
    (RxEvent.get_rx_stream ::
      RxEvent.issue_stream_cmd stream_mode_t.STREAM_MODE_START_CONTINUOUS ::
      (tr ++ [RxEvent.issue_stream_cmd stream_mode_t.STREAM_MODE_STOP_CONTINUOUS]),
     Outcome.returned)
  | (tr, o) =>
    (RxEvent.get_rx_stream ::
      RxEvent.issue_stream_cmd stream_mode_t.STREAM_MODE_START_CONTINUOUS :: tr, o)

/-- The events of one loop iteration of `rxWorker` whose body is entered. -/
def RxStep.events (sampleCount : ℤ) (st : RxStep) : List (RxEvent α) :=
  [RxEvent.recv sampleCount 3.5,
   RxEvent.swap (volk_16i_s32f_convert_32f st.samps 2048 (st.num_rx_samps * 2))
     st.num_rx_samps]

/-- The blocks handed to `out.swap`, in order: sample count and converted floats. -/
def published : List (RxEvent α) → List (ℕ × List α)
  | [] => []
  | RxEvent.swap b n :: tr => (n, b) :: published tr
  | _ :: tr => published tr

/-- The stream commands issued, in order. -/
def commands : List (RxEvent α) → List stream_mode_t
  | [] => []
  | RxEvent.issue_stream_cmd m :: tr => m :: commands tr
  | _ :: tr => commands tr

/-! ## Lifecycle controller -/

/-- Calls `start` makes on the hardware driver: `uhd::usrp::multi_usrp::make` and the
eight setters for the RF parameters. -/
inductive DevCall (α : Type) where
  | make (dev_addr : String)
  | set_rx_rate (rate : α)
  | set_rx_freq (freq : α)
  | set_rx_bandwidth (bandwidth : α)
  | set_rx_gain (gain : α)
  | set_tx_rate (rate : α)
  | set_tx_freq (freq : α)
  | set_tx_bandwidth (bandwidth : α)
  | set_tx_gain (gain : α)

/-- The two worker functions a thread is started on. -/
inductive Worker where
  | rxWorker
  | txWorker
deriving DecidableEq

/-- Actions of `start` and `stop`, in program order: driver calls, thread creation and
join, the four channel calls, and the assignment to `running`. -/
inductive Action (α : Type) where
  | dev (c : DevCall α)
  | spawn (w : Worker)
  | in_stopReader
  | out_stopWriter
  | join (w : Worker)
  | in_clearReadStop
  | out_clearWriteStop
  | set_running (b : Bool)

/-- Modelled from the spec: the cancellation state of a `dsp::stream` channel
(dsp/stream.h is missing from the sources), "explicit cancellation
(`stopReader`/`stopWriter`) with a matching reset (`clearReadStop`/`clearWriteStop`)"
(spec §2): one flag for the reader side, one for the writer side. -/
structure stream where
  readerStop : Bool
  writerStop : Bool
deriving DecidableEq

/-- Modelled from the spec: `dsp::stream::stopReader` cancels the reader side. -/
def stream.stopReader (s : stream) : stream :=
  { s with readerStop := true }

/-- Modelled from the spec: `dsp::stream::stopWriter` cancels the writer side. -/
def stream.stopWriter (s : stream) : stream :=
  { s with writerStop := true }

/-- Modelled from the spec: `dsp::stream::clearReadStop` resets the reader-side flag. -/
def stream.clearReadStop (s : stream) : stream :=
  { s with readerStop := false }

/-- Modelled from the spec: `dsp::stream::clearWriteStop` resets the writer-side flag. -/
def stream.clearWriteStop (s : stream) : stream :=
  { s with writerStop := false }

/-- The members of `class USRP` (usrp.h) that `start` and `stop` read or write, and the
state of the channel `in` points to (`in_`, as `in` is a keyword).  `rxWorkerThread` and
`txWorkerThread` hold `joinable()` of the two `std::thread` members; `dev` holds the
address the device handle was made from. -/
structure USRP (α : Type) where
  in_ : stream
  out : stream
  samplerate : α
  rxFrequency : α
  txFrequency : α
  running : Bool
  dev : Option String
  rxWorkerThread : Bool
  txWorkerThread : Bool

/-- The state after a call of `start` or `stop`, the actions performed, how it ended. -/
structure Run (α : Type) where
  state : USRP α
  trace : List (Action α)
  outcome : Outcome (DevCall α)

/-- The constructor `USRP::USRP` (usrp.cpp lines 7-13; `USRP.USRP` would shadow the
type inside its own namespace) with the member initialisers of usrp.h: the input
channel and the configuration are saved, `running` is false, no thread and no device
exist.  `out` is the state of the member `out` at that moment. -/
def USRP.construct (in_ out : stream) (samplerate rxFrequency txFrequency : α) : USRP α :=
  { in_ := in_, out := out, samplerate := samplerate, rxFrequency := rxFrequency,
    txFrequency := txFrequency, running := false, dev := none, rxWorkerThread := false,
    txWorkerThread := false }

/-- Driver calls made one after the other until one throws; `throws` tells which calls
throw.  Result: the calls made, the throwing one included, and the call that threw. -/
def perform (throws : DevCall α → Bool) :
    List (DevCall α) → List (DevCall α) × Option (DevCall α)
  | [] => ([], none)
  | c :: cs =>
    if throws c = true then ([c], some c)
    else (c :: (perform throws cs).1, (perform throws cs).2)

/-- The eight RF-parameter calls of `start` (usrp.cpp lines 29-38), in program order. -/
def USRP.rfParameters (u : USRP α) : List (DevCall α) :=
  [DevCall.set_rx_rate u.samplerate, DevCall.set_rx_freq u.rxFrequency,
   DevCall.set_rx_bandwidth u.samplerate, DevCall.set_rx_gain 40,
   DevCall.set_tx_rate u.samplerate, DevCall.set_tx_freq u.txFrequency,
   DevCall.set_tx_bandwidth u.samplerate, DevCall.set_tx_gain 40]

/-- The function `USRP::start` (usrp.cpp lines 20-46).  `dev` is assigned once `make`
has returned.  In `rxWorkerThread = std::thread(...)` the right-hand side starts the
thread; move-assigning it to a member that is still joinable calls `std::terminate`. -/
def USRP.start (throws : DevCall α → Bool) (u : USRP α) : Run α :=
  if u.running = true then ⟨u, [], Outcome.returned⟩
  else if throws (DevCall.make "type=b200") = true then
    ⟨u, [Action.dev (DevCall.make "type=b200")], Outcome.threw (DevCall.make "type=b200")⟩
  else
    match perform throws u.rfParameters with
    | (done, some c) =>
      ⟨{ u with dev := some "type=b200" },
       Action.dev (DevCall.make "type=b200") :: done.map Action.dev, Outcome.threw c⟩
    | (done, none) =>
      if u.rxWorkerThread = true then
        ⟨{ u with dev := some "type=b200" },
         Action.dev (DevCall.make "type=b200") ::
           (done.map Action.dev ++ [Action.spawn Worker.rxWorker]),
         Outcome.terminated⟩
      else if u.txWorkerThread = true then
        ⟨{ u with dev := some "type=b200", rxWorkerThread := true },
         Action.dev (DevCall.make "type=b200") ::
           (done.map Action.dev ++
             [Action.spawn Worker.rxWorker, Action.spawn Worker.txWorker]),
         Outcome.terminated⟩
      else
        ⟨{ u with dev := some "type=b200", rxWorkerThread := true, txWorkerThread := true,
                  running := true },
         Action.dev (DevCall.make "type=b200") ::
           (done.map Action.dev ++
             [Action.spawn Worker.rxWorker, Action.spawn Worker.txWorker,
              Action.set_running true]),
         Outcome.returned⟩

/-- The function `USRP::stop` (usrp.cpp lines 48-62).  Each `let` is one statement; a
thread that has been joined is no longer joinable. -/
def USRP.stop (u : USRP α) : Run α :=
  if u.running = false then ⟨u, [], Outcome.returned⟩
  else
    let u1 := { u with in_ := u.in_.stopReader }
    let u2 := { u1 with out := u1.out.stopWriter }
    let u3 := { u2 with rxWorkerThread := false }
    let u4 := { u3 with txWorkerThread := false }
    let u5 := { u4 with in_ := u4.in_.clearReadStop }
    let u6 := { u5 with out := u5.out.clearWriteStop }
    ⟨{ u6 with running := false },
     [Action.in_stopReader, Action.out_stopWriter] ++
       (if u2.rxWorkerThread = true then [Action.join Worker.rxWorker] else []) ++
       (if u3.txWorkerThread = true then [Action.join Worker.txWorker] else []) ++
       [Action.in_clearReadStop, Action.out_clearWriteStop, Action.set_running false],
     Outcome.returned⟩

/-- Sequential composition `f(); g();` of two calls: `g` runs on the state `f` leaves,
and only when `f` returned. -/
def Run.andThen (r : Run α) (g : USRP α → Run α) : Run α :=
  match r.outcome with
  | Outcome.returned =>
    ⟨(g r.state).state, r.trace ++ (g r.state).trace, (g r.state).outcome⟩
  | _ => r

/-- The engine states that arise from a constructed engine by calls of `start` and
`stop`, whatever the driver does. -/
inductive Reachable : USRP α → Prop where
  | construct (in_ out : stream) (samplerate rxFrequency txFrequency : α) :
      Reachable (USRP.construct in_ out samplerate rxFrequency txFrequency)
  | start (throws : DevCall α → Bool) (u : USRP α) :
      Reachable u → Reachable (USRP.start throws u).state
  | stop (u : USRP α) : Reachable u → Reachable (USRP.stop u).state

/-- Whether an action starts a worker thread. -/
def Action.isSpawn : Action α → Bool
  | Action.spawn _ => true
  | _ => false

/-! ## Theorems -/

/-! ### Sample conversion -/

theorem rint_sub_le (r : α) : |(rint r : α) - r| ≤ 1 / 2 := by
  have h0 : (⌊r⌋ : α) ≤ r := Int.floor_le r
  have h1 : r < (⌊r⌋ : α) + 1 := Int.lt_floor_add_one r
  unfold rint
  split_ifs with ha hb hc
  · rw [abs_le]; constructor <;> linarith
  · push_cast; rw [abs_le]; constructor <;> linarith
  · have : r - (⌊r⌋ : α) = 1 / 2 := le_antisymm (not_lt.mp hb) (not_lt.mp ha)
    rw [abs_le]; constructor <;> linarith
  · have : r - (⌊r⌋ : α) = 1 / 2 := le_antisymm (not_lt.mp hb) (not_lt.mp ha)
    push_cast; rw [abs_le]; constructor <;> linarith

theorem sat16_of_mem {z : ℤ} (hlo : -32768 ≤ z) (hhi : z ≤ 32767) : sat16 z = z := by
  unfold sat16
  rw [if_neg (by omega), if_neg (by omega)]

theorem rint_unit_range (x : α) (hlo : -1 ≤ x) (hhi : x ≤ 1) :
    -32768 ≤ rint (x * 2048) ∧ rint (x * 2048) ≤ 32767 := by
  have h := abs_le.mp (rint_sub_le (x * 2048))
  constructor
  · have : ((-32769 : ℤ) : α) < (rint (x * 2048) : α) := by push_cast; linarith [h.1]
    have := Int.cast_lt.mp this
    omega
  · have : (rint (x * 2048) : α) < ((32768 : ℤ) : α) := by push_cast; linarith [h.2]
    have := Int.cast_lt.mp this
    omega

/-- C1: a sample component `x` with `-1 ≤ x ≤ 1`, converted to fixed point as `txWorker`
does (scale 2048, round, saturate) and back as `rxWorker` does (divide by 2048), comes
back within `1/2048` of `x`. -/
theorem roundtrip_within_step (x : α) (hlo : -1 ≤ x) (hhi : x ≤ 1) :
    |convert_32f (convert_16i x (2048 : α)) (2048 : α) - x| ≤ 1 / 2048 := by
  obtain ⟨h1, h2⟩ := rint_unit_range x hlo hhi
  have h := abs_le.mp (rint_sub_le (x * 2048))
  unfold convert_32f convert_16i
  rw [sat16_of_mem h1 h2, abs_le]
  constructor
  · rw [le_sub_iff_add_le, le_div_iff₀ (by norm_num)]; linarith [h.1]
  · rw [sub_le_iff_le_add, div_le_iff₀ (by norm_num)]; linarith [h.2]

theorem roundtrip_within_step_witness :
    (-1 : ℚ) ≤ 1 / 3 ∧ (1 / 3 : ℚ) ≤ 1 ∧
      |convert_32f (convert_16i (1 / 3 : ℚ) (2048 : ℚ)) (2048 : ℚ) - 1 / 3| ≤ 1 / 2048 :=
  ⟨by norm_num, by norm_num, roundtrip_within_step (1 / 3 : ℚ) (by norm_num) (by norm_num)⟩

/-! ### Receive worker -/

theorem sampleCount_two_megahertz : sampleCount (2000000 : α) = 10000 := by
  have h : (2000000 : α) / 200 = ((10000 : ℤ) : α) := by norm_num
  unfold sampleCount toInt
  rw [h, if_pos (by norm_num), Int.floor_intCast]

theorem volk_16i_s32f_convert_32f_const (samps : ℕ → ℤ) (scalar : α) (n : ℕ) (v : ℤ)
    (h : ∀ i, i < n → samps i = v) :
    volk_16i_s32f_convert_32f samps scalar n = List.replicate n (convert_32f v scalar) := by
  unfold volk_16i_s32f_convert_32f
  apply List.ext_getElem
  · simp
  · intro i h1 h2
    have hi : i < n := by simpa using h1
    simp [h i hi]

theorem rxLoop_append (sc : ℤ) (pre tl : List RxStep)
    (hpre : ∀ st ∈ pre, st.running = true ∧ st.swap = true) :
    rxLoop (α := α) sc (pre ++ tl) =
      (pre.flatMap (RxStep.events sc) ++ (rxLoop (α := α) sc tl).1,
       (rxLoop (α := α) sc tl).2) := by
  induction pre with
  | nil => simp
  | cons st pre ih =>
    have hst := hpre st (List.mem_cons_self _ _)
    have ih1 := ih (fun t ht => hpre t (List.mem_cons_of_mem _ ht))
    rw [List.flatMap_cons, List.cons_append]
    simp only [rxLoop, hst.1, hst.2, ih1, RxStep.events]
    simp

theorem rxLoop_last (sc : ℤ) (last : RxStep) (rest : List RxStep)
    (hlast : last.running = false ∨ last.swap = false) :
    rxLoop (α := α) sc (last :: rest) =
      (if last.running = true then RxStep.events sc last else [], Outcome.returned) := by
  cases hr : last.running
  · simp [rxLoop, hr]
  · have hs : last.swap = false := by
      rcases hlast with h | h
      · rw [hr] at h; cases h
      · exact h
    simp [rxLoop, hr, hs, RxStep.events]

theorem commands_append (t1 t2 : List (RxEvent α)) :
    commands (t1 ++ t2) = commands t1 ++ commands t2 := by
  induction t1 with
  | nil => rfl
  | cons e t1 ih => cases e <;> simp [commands, ih]

theorem published_append (t1 t2 : List (RxEvent α)) :
    published (t1 ++ t2) = published t1 ++ published t2 := by
  induction t1 with
  | nil => rfl
  | cons e t1 ih => cases e <;> simp [published, ih]

theorem commands_events (sc : ℤ) (l : List RxStep) :
    commands (l.flatMap (RxStep.events (α := α) sc)) = [] := by
  induction l with
  | nil => rfl
  | cons st l ih =>
    rw [List.flatMap_cons, commands_append, ih]
    simp [RxStep.events, commands]

theorem published_events (sc : ℤ) (l : List RxStep) :
    published (l.flatMap (RxStep.events (α := α) sc)) =
      l.map (fun st =>
        (st.num_rx_samps, volk_16i_s32f_convert_32f st.samps (2048 : α) (st.num_rx_samps * 2))) := by
  induction l with
  | nil => rfl
  | cons st l ih =>
    rw [List.flatMap_cons, published_append, ih]
    simp [RxStep.events, published]

/-- C9: for receive results `pre` whose iterations all see `running` true and a successful
`swap`, followed by an iteration `last` that sees `running` false or a failing `swap`,
`rxWorker` returns, having issued START_CONTINUOUS once before the loop, one `recv` and
one `swap` per iteration entered, with the received count unchanged and in order (a
zero-length receive included), and STOP_CONTINUOUS once, as its last call. -/
theorem rxWorker_trace (samplerate : α) (pre : List RxStep) (last : RxStep)
    (rest : List RxStep)
    (hpre : ∀ st ∈ pre, st.running = true ∧ st.swap = true)
    (hlast : last.running = false ∨ last.swap = false) :
    rxWorker samplerate (pre ++ last :: rest) =
      (RxEvent.get_rx_stream ::
        RxEvent.issue_stream_cmd stream_mode_t.STREAM_MODE_START_CONTINUOUS ::
        (pre.flatMap (RxStep.events (sampleCount samplerate)) ++
          (if last.running = true then RxStep.events (sampleCount samplerate) last else []) ++
          [RxEvent.issue_stream_cmd stream_mode_t.STREAM_MODE_STOP_CONTINUOUS]),
       Outcome.returned) ∧
    commands (rxWorker samplerate (pre ++ last :: rest)).1 =
      [stream_mode_t.STREAM_MODE_START_CONTINUOUS,
       stream_mode_t.STREAM_MODE_STOP_CONTINUOUS] ∧
    published (rxWorker samplerate (pre ++ last :: rest)).1 =
      (pre ++ if last.running = true then [last] else []).map (fun st =>
        (st.num_rx_samps,
         volk_16i_s32f_convert_32f st.samps (2048 : α) (st.num_rx_samps * 2))) := by
  have hrun : rxWorker samplerate (pre ++ last :: rest) =
      (RxEvent.get_rx_stream ::
        RxEvent.issue_stream_cmd stream_mode_t.STREAM_MODE_START_CONTINUOUS ::
        (pre.flatMap (RxStep.events (sampleCount samplerate)) ++
          (if last.running = true then RxStep.events (sampleCount samplerate) last else []) ++
          [RxEvent.issue_stream_cmd stream_mode_t.STREAM_MODE_STOP_CONTINUOUS]),
       Outcome.returned) := by
    unfold rxWorker
    rw [rxLoop_append _ pre _ hpre, rxLoop_last _ last rest hlast]
  refine ⟨hrun, ?_, ?_⟩
  · rw [hrun]
    cases hr : last.running <;>
      simp [commands, commands_append, commands_events, RxStep.events]
  · rw [hrun]
    cases hr : last.running <;>
      simp [published, published_append, published_events, RxStep.events]

theorem rxWorker_trace_witness :
    (∀ st ∈ [(⟨true, 0, fun _ => 0, true⟩ : RxStep)], st.running = true ∧ st.swap = true) ∧
    ((⟨true, 1, fun _ => 2048, false⟩ : RxStep).running = false ∨
      (⟨true, 1, fun _ => 2048, false⟩ : RxStep).swap = false) ∧
    commands (rxWorker (2000000 : ℚ)
      ([(⟨true, 0, fun _ => 0, true⟩ : RxStep)] ++ ⟨true, 1, fun _ => 2048, false⟩ :: [])).1 =
      [stream_mode_t.STREAM_MODE_START_CONTINUOUS,
       stream_mode_t.STREAM_MODE_STOP_CONTINUOUS] :=
  ⟨by simp, by simp,
   (rxWorker_trace (2000000 : ℚ) [⟨true, 0, fun _ => 0, true⟩] ⟨true, 1, fun _ => 2048, false⟩ []
      (by simp) (by simp)).2.1⟩

/-- C7: at a sample rate of 2,000,000 Hz the receive block size is 10,000 samples, and
an iteration of `rxWorker` that receives 10,000 samples whose I and Q values are all
32767 publishes 10,000 complex samples (20,000 interleaved floats) each equal to
`32767/2048`, a value within `1/2048` of 16. -/
theorem rxWorker_full_scale_block (st : RxStep) (rest : List RxStep)
    (hrun : st.running = true) (hn : st.num_rx_samps = 10000)
    (hfull : ∀ i, i < 20000 → st.samps i = 32767) :
    sampleCount (2000000 : α) = 10000 ∧
    (rxWorker (2000000 : α) (st :: rest)).1.take 4 =
      [RxEvent.get_rx_stream,
       RxEvent.issue_stream_cmd stream_mode_t.STREAM_MODE_START_CONTINUOUS,
       RxEvent.recv 10000 3.5,
       RxEvent.swap (List.replicate 20000 ((32767 : α) / 2048)) 10000] ∧
    |(32767 : α) / 2048 - 16| ≤ 1 / 2048 := by
  have hbuf : volk_16i_s32f_convert_32f st.samps (2048 : α) (st.num_rx_samps * 2) =
      List.replicate 20000 ((32767 : α) / 2048) := by
    have h2 : (10000 * 2 : ℕ) = 20000 := by norm_num
    have h3 : convert_32f 32767 (2048 : α) = (32767 : α) / 2048 := by
      unfold convert_32f; norm_num
    rw [hn, h2, volk_16i_s32f_convert_32f_const st.samps 2048 20000 32767 hfull, h3]
  refine ⟨sampleCount_two_megahertz, ?_, ?_⟩
  · unfold rxWorker
    rw [sampleCount_two_megahertz]
    simp only [rxLoop, hrun, hbuf]
    generalize List.replicate 20000 ((32767 : α) / 2048) = blk
    cases hs : st.swap
    · simp [hn]
    · rcases rxLoop (α := α) 10000 rest with ⟨tr, o⟩
      cases o <;> simp [hn]
  · rw [abs_le]; constructor <;> norm_num

theorem rxWorker_full_scale_block_witness :
    (rxWorker (2000000 : ℚ) ((⟨true, 10000, fun _ => 32767, true⟩ : RxStep) :: [])).1.take 4 =
      [RxEvent.get_rx_stream,
       RxEvent.issue_stream_cmd stream_mode_t.STREAM_MODE_START_CONTINUOUS,
       RxEvent.recv 10000 3.5,
       RxEvent.swap (List.replicate 20000 ((32767 : ℚ) / 2048)) 10000] :=
  (rxWorker_full_scale_block (α := ℚ) ⟨true, 10000, fun _ => 32767, true⟩ []
    rfl rfl (fun _ _ => rfl)).2.1

/-! ### Transmit worker -/

theorem txLoop_append (B : ℤ) (pre tl : List (TxStep α))
    (hpre : ∀ st ∈ pre, st.inFlight B) :
    txLoop B ⟨false, false⟩ (pre ++ tl) =
      (pre.flatMap TxStep.events ++ (txLoop B ⟨false, false⟩ tl).1,
       (txLoop B ⟨false, false⟩ tl).2) := by
  induction pre with
  | nil => simp
  | cons st pre ih =>
    obtain ⟨h1, h2, h3⟩ := hpre st (List.mem_cons_self _ _)
    have ih1 := ih (fun t ht => hpre t (List.mem_cons_of_mem _ ht))
    rw [List.flatMap_cons, List.cons_append]
    simp only [txLoop, h1, ih1, TxStep.events]
    rw [if_neg (by simp), if_neg (not_le.mpr h2), if_neg (not_lt.mpr h3)]
    simp

theorem txLoop_closed (B : ℤ) (last : TxStep α) (rest : List (TxStep α))
    (hrun : last.running = true) (hlast : last.count ≤ 0) :
    txLoop B ⟨false, false⟩ (last :: rest) = ([TxEvent.read last.count], Outcome.returned) := by
  simp [txLoop, hrun, hlast]

theorem txLoop_overflow (B : ℤ) (st : TxStep α) (rest : List (TxStep α))
    (hrun : st.running = true) (hpos : 0 < st.count) (hbig : st.count * 2 > B) :
    txLoop B ⟨false, false⟩ (st :: rest) =
      ([TxEvent.read st.count], Outcome.threw "Buffer overflow detected") := by
  simp only [txLoop, hrun]
  rw [if_neg (by simp), if_neg (not_le.mpr hpos), if_pos hbig]

theorem sends_append (t1 t2 : List TxEvent) : sends (t1 ++ t2) = sends t1 ++ sends t2 := by
  induction t1 with
  | nil => rfl
  | cons e t1 ih => cases e <;> simp [sends, ih]

theorem sends_events (l : List (TxStep α)) :
    sends (l.flatMap TxStep.events) =
      l.map (fun st =>
        (volk_32f_s32f_convert_16i st.readBuf (2048 : α) (st.count * 2).toNat, st.count,
         (⟨false, false⟩ : tx_metadata_t))) := by
  induction l with
  | nil => rfl
  | cons st l ih =>
    rw [List.flatMap_cons, sends_append, ih]
    simp [TxStep.events, sends]

theorem txWorker_closed (S : ℤ) (pre : List (TxStep α)) (last : TxStep α)
    (rest : List (TxStep α))
    (hpre : ∀ st ∈ pre, st.inFlight (S * 2))
    (hrun : last.running = true) (hlast : last.count ≤ 0) :
    txWorker S ⟨true, pre ++ last :: rest⟩ =
      (TxEvent.get_tx_stream ::
        (pre.flatMap TxStep.events ++
          [TxEvent.read last.count, TxEvent.send [] 0 ⟨false, true⟩]),
       Outcome.returned) := by
  unfold txWorker
  simp only [txLoop_append _ pre _ hpre, txLoop_closed _ last rest hrun hlast]
  simp

/-- C2: when the steps before the first non-positive count all see `running` true and a
count that fits the conversion buffer, and `running` is true at the read that returns
`count ≤ 0`, then `txWorker` returns; exactly one block it sent has `end_of_burst` set,
that block has length zero, and it is the last block sent and the last call made. -/
theorem txWorker_end_of_burst (S : ℤ) (pre : List (TxStep α)) (last : TxStep α)
    (rest : List (TxStep α))
    (hpre : ∀ st ∈ pre, st.inFlight (S * 2))
    (hrun : last.running = true) (hlast : last.count ≤ 0) :
    (txWorker S ⟨true, pre ++ last :: rest⟩).2 = Outcome.returned ∧
    (sends (txWorker S ⟨true, pre ++ last :: rest⟩).1).filter
        (fun b => b.2.2.end_of_burst) = [([], 0, ⟨false, true⟩)] ∧
    (sends (txWorker S ⟨true, pre ++ last :: rest⟩).1).getLast? =
      some ([], 0, ⟨false, true⟩) ∧
    (txWorker S ⟨true, pre ++ last :: rest⟩).1.getLast? =
      some (TxEvent.send [] 0 ⟨false, true⟩) := by
  rw [txWorker_closed S pre last rest hpre hrun hlast]
  refine ⟨rfl, ?_, ?_, ?_⟩
  · simp [sends, sends_append, sends_events, List.filter_map, Function.comp_def]
  · simp [sends, sends_append, sends_events]
  · have h : TxEvent.get_tx_stream ::
        (pre.flatMap TxStep.events ++
          [TxEvent.read last.count, TxEvent.send [] 0 ⟨false, true⟩]) =
        (TxEvent.get_tx_stream :: (pre.flatMap TxStep.events ++ [TxEvent.read last.count])) ++
          [TxEvent.send [] 0 ⟨false, true⟩] := by simp
    simp only [h, List.getLast?_concat]

theorem txWorker_end_of_burst_witness :
    (∀ st ∈ [(⟨true, 2, fun i => (i : ℚ) / 7⟩ : TxStep ℚ)], st.inFlight (4 * 2)) ∧
    (txWorker 4 (⟨true, [(⟨true, 2, fun i => (i : ℚ) / 7⟩ : TxStep ℚ)] ++
        (⟨true, 0, fun _ => 0⟩ : TxStep ℚ) :: []⟩ : TxEnv ℚ)).2 = Outcome.returned :=
  ⟨by simp [TxStep.inFlight],
   (txWorker_end_of_burst (4 : ℤ) [(⟨true, 2, fun i => (i : ℚ) / 7⟩ : TxStep ℚ)]
      ⟨true, 0, fun _ => 0⟩ [] (by simp [TxStep.inFlight]) rfl (by simp)).1⟩

/-- C8: for positive in-capacity read counts followed by a non-positive count, with
`running` true throughout, `txWorker` makes, per count and in order, one `read`, one
`flush` and then one `send` of that count carrying the block converted with scale 2048,
with both burst flags false; then the closing `read` and the single zero-length
end-of-burst `send`.  The blocks sent are exactly those, in the order read. -/
theorem txWorker_block_order (S : ℤ) (pre : List (TxStep α)) (last : TxStep α)
    (rest : List (TxStep α))
    (hpre : ∀ st ∈ pre, st.inFlight (S * 2))
    (hrun : last.running = true) (hlast : last.count ≤ 0) :
    txWorker S ⟨true, pre ++ last :: rest⟩ =
      (TxEvent.get_tx_stream ::
        (pre.flatMap (fun st =>
            [TxEvent.read st.count, TxEvent.flush,
             TxEvent.send (volk_32f_s32f_convert_16i st.readBuf (2048 : α) (st.count * 2).toNat)
               st.count ⟨false, false⟩]) ++
          [TxEvent.read last.count, TxEvent.send [] 0 ⟨false, true⟩]),
       Outcome.returned) ∧
    sends (txWorker S ⟨true, pre ++ last :: rest⟩).1 =
      pre.map (fun st =>
        (volk_32f_s32f_convert_16i st.readBuf (2048 : α) (st.count * 2).toNat, st.count,
         (⟨false, false⟩ : tx_metadata_t))) ++ [([], 0, ⟨false, true⟩)] ∧
    ∀ st ∈ pre,
      (volk_32f_s32f_convert_16i st.readBuf (2048 : α) (st.count * 2).toNat).length =
        2 * st.count.toNat := by
  rw [txWorker_closed S pre last rest hpre hrun hlast]
  refine ⟨rfl, ?_, ?_⟩
  · simp [sends, sends_append, sends_events]
  · intro st hst
    obtain ⟨_, h2, _⟩ := hpre st hst
    unfold volk_32f_s32f_convert_16i
    rw [List.length_map, List.length_range]
    omega

theorem txWorker_block_order_witness :
    (∀ st ∈ [(⟨true, 2, fun i => (i : ℚ) / 7⟩ : TxStep ℚ), ⟨true, 1, fun _ => 1⟩],
      st.inFlight (4 * 2)) ∧
    sends (txWorker 4 (⟨true, [(⟨true, 2, fun i => (i : ℚ) / 7⟩ : TxStep ℚ),
        ⟨true, 1, fun _ => 1⟩] ++ (⟨true, -1, fun _ => 0⟩ : TxStep ℚ) :: []⟩ : TxEnv ℚ)).1 =
      [(⟨true, 2, fun i => (i : ℚ) / 7⟩ : TxStep ℚ), ⟨true, 1, fun _ => 1⟩].map (fun st =>
        (volk_32f_s32f_convert_16i st.readBuf (2048 : ℚ) (st.count * 2).toNat, st.count,
         (⟨false, false⟩ : tx_metadata_t))) ++ [([], 0, ⟨false, true⟩)] :=
  ⟨by simp [TxStep.inFlight],
   (txWorker_block_order (4 : ℤ)
      [(⟨true, 2, fun i => (i : ℚ) / 7⟩ : TxStep ℚ), ⟨true, 1, fun _ => 1⟩]
      ⟨true, -1, fun _ => 0⟩ [] (by simp [TxStep.inFlight]) rfl (by simp)).2.1⟩

/-- C5 (counterexample): with `STREAM_BUFFER_SIZE = 1000000`, a first block of 1000001
samples makes `txWorker` end by an exception that leaves the function: the error is not
handled inside the worker, and the worker does not return. -/
theorem txWorker_overflow_not_handled :
    (txWorker (1000000 : ℤ)
        (⟨true, [(⟨true, 1000001, fun _ => 0⟩ : TxStep ℚ)]⟩ : TxEnv ℚ)).2 =
      Outcome.threw "Buffer overflow detected" ∧
    (txWorker (1000000 : ℤ)
        (⟨true, [(⟨true, 1000001, fun _ => 0⟩ : TxStep ℚ)]⟩ : TxEnv ℚ)).2 ≠
      Outcome.returned := by
  have h : (txWorker (1000000 : ℤ)
        (⟨true, [(⟨true, 1000001, fun _ => 0⟩ : TxStep ℚ)]⟩ : TxEnv ℚ)) =
      ([TxEvent.get_tx_stream, TxEvent.read 1000001],
       Outcome.threw "Buffer overflow detected") := by
    unfold txWorker
    rw [txLoop_overflow _ _ _ rfl (by norm_num) (by norm_num)]
    simp
  rw [h]
  exact ⟨rfl, by simp⟩

/-- C5 (amended): a block larger than the conversion buffer (`count * 2 > bufferSize =
STREAM_BUFFER_SIZE * 2`) whose doubled count still fits a 32-bit `int`
(`count * 2 ≤ INT_MAX = 2147483647`, so that the product of line 121 does not overflow),
read after any number of in-capacity blocks, makes `txWorker` throw
`std::runtime_error("Buffer overflow detected")`; the exception leaves the worker
function, and the last call the worker made is the `read` of that block: no sample of
it is converted, flushed or sent.  Nothing is stated for counts from `2^30` on, where
the C product overflows. -/
theorem txWorker_overflow_throws (S : ℤ) (pre : List (TxStep α)) (st : TxStep α)
    (rest : List (TxStep α))
    (hpre : ∀ t ∈ pre, t.inFlight (S * 2))
    (hrun : st.running = true) (hpos : 0 < st.count) (hbig : st.count * 2 > S * 2)
    (_hint : st.count * 2 ≤ 2147483647) :
    txWorker S ⟨true, pre ++ st :: rest⟩ =
      (TxEvent.get_tx_stream :: (pre.flatMap TxStep.events ++ [TxEvent.read st.count]),
       Outcome.threw "Buffer overflow detected") ∧
    sends (txWorker S ⟨true, pre ++ st :: rest⟩).1 =
      pre.map (fun t =>
        (volk_32f_s32f_convert_16i t.readBuf (2048 : α) (t.count * 2).toNat, t.count,
         (⟨false, false⟩ : tx_metadata_t))) := by
  have h : txWorker S ⟨true, pre ++ st :: rest⟩ =
      (TxEvent.get_tx_stream :: (pre.flatMap TxStep.events ++ [TxEvent.read st.count]),
       Outcome.threw "Buffer overflow detected") := by
    unfold txWorker
    simp only [txLoop_append _ pre _ hpre, txLoop_overflow _ st rest hrun hpos hbig]
    simp
  refine ⟨h, ?_⟩
  rw [h]
  simp [sends, sends_append, sends_events]

theorem txWorker_overflow_throws_witness :
    (∀ t ∈ [(⟨true, 2, fun i => (i : ℚ) / 7⟩ : TxStep ℚ)], t.inFlight (4 * 2)) ∧
    (⟨true, 5, fun _ => 1⟩ : TxStep ℚ).count * 2 > 4 * 2 ∧
    (⟨true, 5, fun _ => 1⟩ : TxStep ℚ).count * 2 ≤ 2147483647 ∧
    (txWorker 4 (⟨true, [(⟨true, 2, fun i => (i : ℚ) / 7⟩ : TxStep ℚ)] ++
        (⟨true, 5, fun _ => 1⟩ : TxStep ℚ) :: []⟩ : TxEnv ℚ)).2 =
      Outcome.threw "Buffer overflow detected" :=
  ⟨by simp [TxStep.inFlight], by decide, by decide,
   congrArg Prod.snd
     (txWorker_overflow_throws (4 : ℤ) [(⟨true, 2, fun i => (i : ℚ) / 7⟩ : TxStep ℚ)]
        ⟨true, 5, fun _ => 1⟩ [] (by simp [TxStep.inFlight]) rfl (by decide) (by decide)
        (by decide)).1⟩

/-! ### Lifecycle controller -/

theorem perform_none (throws : DevCall α → Bool) (l : List (DevCall α))
    (h : ∀ c ∈ l, throws c = false) : perform throws l = (l, none) := by
  induction l with
  | nil => rfl
  | cons c l ih =>
    have hc := h c (List.mem_cons_self _ _)
    have ih1 := ih (fun d hd => h d (List.mem_cons_of_mem _ hd))
    simp [perform, hc, ih1]

theorem perform_some (throws : DevCall α → Bool) (l : List (DevCall α))
    (h : ∃ c ∈ l, throws c = true) :
    ∃ c, (perform throws l).2 = some c ∧ throws c = true ∧ c ∈ l := by
  induction l with
  | nil => obtain ⟨c, hc, _⟩ := h; cases hc
  | cons d l ih =>
    cases hd : throws d
    · have h1 : ∃ c ∈ l, throws c = true := by
        obtain ⟨c, hc, hct⟩ := h
        rcases List.mem_cons.mp hc with rfl | hc1
        · rw [hd] at hct; cases hct
        · exact ⟨c, hc1, hct⟩
      obtain ⟨c, h2, h3, h4⟩ := ih h1
      exact ⟨c, by simp [perform, hd, h2], h3, List.mem_cons_of_mem _ h4⟩
    · exact ⟨d, by simp [perform, hd], hd, List.mem_cons_self _ _⟩

theorem perform_result (throws : DevCall α → Bool) (l : List (DevCall α)) :
    ((perform throws l).2 = none ∧ (perform throws l).1 = l) ∨
    ∃ c, (perform throws l).2 = some c ∧ throws c = true ∧ c ∈ l := by
  by_cases h : ∃ c ∈ l, throws c = true
  · exact Or.inr (perform_some throws l h)
  · left
    have h1 : ∀ c ∈ l, throws c = false := by
      intro c hc
      cases hcv : throws c
      · rfl
      · exact absurd ⟨c, hc, hcv⟩ h
    rw [perform_none throws l h1]
    exact ⟨rfl, rfl⟩

theorem start_running (throws : DevCall α → Bool) (u : USRP α) (h : u.running = true) :
    u.start throws = ⟨u, [], Outcome.returned⟩ := by
  simp [USRP.start, h]

theorem stop_not_running (u : USRP α) (h : u.running = false) :
    u.stop = ⟨u, [], Outcome.returned⟩ := by
  simp [USRP.stop, h]

theorem start_returned (throws : DevCall α → Bool) (u : USRP α) (h : u.running = false)
    (hok : (u.start throws).outcome = Outcome.returned) :
    u.start throws =
      ⟨{ u with dev := some "type=b200", rxWorkerThread := true, txWorkerThread := true,
                running := true },
       Action.dev (DevCall.make "type=b200") ::
         (u.rfParameters.map Action.dev ++
           [Action.spawn Worker.rxWorker, Action.spawn Worker.txWorker,
            Action.set_running true]),
       Outcome.returned⟩ := by
  unfold USRP.start at hok ⊢
  rw [if_neg (by simp [h])] at hok ⊢
  by_cases hm : throws (DevCall.make "type=b200") = true
  · rw [if_pos hm] at hok; cases hok
  · rw [if_neg hm] at hok ⊢
    rcases perform_result throws u.rfParameters with ⟨h1, h2⟩ | ⟨c, h1, _, _⟩
    · have hp : perform throws u.rfParameters = (u.rfParameters, none) :=
        Prod.ext h2 h1
      rw [hp] at hok ⊢
      by_cases hr : u.rxWorkerThread = true
      · simp [hr] at hok
      · by_cases ht : u.txWorkerThread = true
        · simp [hr, ht] at hok
        · simp [hr, ht]
    · rcases hp : perform throws u.rfParameters with ⟨done, o⟩
      rw [hp] at h1 hok
      simp only at h1
      subst h1
      simp at hok

theorem start_state_running (throws : DevCall α → Bool) (u : USRP α)
    (hok : (u.start throws).outcome = Outcome.returned) :
    (u.start throws).state.running = true := by
  cases h : u.running
  · rw [start_returned throws u h hok]
  · rw [start_running throws u h]; exact h

theorem stop_outcome (u : USRP α) : u.stop.outcome = Outcome.returned := by
  unfold USRP.stop
  split_ifs <;> rfl

theorem stop_state_running (u : USRP α) : u.stop.state.running = false := by
  unfold USRP.stop
  split_ifs with h
  · exact h
  · rfl

theorem andThen_noop (r : Run α) (g : USRP α → Run α)
    (hg : r.outcome = Outcome.returned → g r.state = ⟨r.state, [], Outcome.returned⟩) :
    r.andThen g = r := by
  rcases r with ⟨st, tr, o⟩
  cases o
  · have h := hg rfl
    simp only at h
    simp [Run.andThen, h]
  all_goals rfl

/-- C3: `stop(); stop();` leaves the state, performs the actions and ends as a single
`stop()` does, and so does `start(); start();` compared with a single `start()`, from
every engine state and whatever the driver does: a second `stop` performs no action,
and a `start` that follows a `start` that returned performs no action (no device is
made, no RF parameter is applied, no worker is spawned). -/
theorem lifecycle_idempotent (u : USRP α) (t1 t2 : DevCall α → Bool) :
    u.stop.andThen USRP.stop = u.stop ∧
    (u.start t1).andThen (USRP.start t2) = u.start t1 ∧
    USRP.stop u.stop.state = ⟨u.stop.state, [], Outcome.returned⟩ ∧
    ((u.start t1).outcome = Outcome.returned →
      USRP.start t2 (u.start t1).state = ⟨(u.start t1).state, [], Outcome.returned⟩) := by
  have hstop : USRP.stop u.stop.state = ⟨u.stop.state, [], Outcome.returned⟩ :=
    stop_not_running _ (stop_state_running u)
  have hstart : (u.start t1).outcome = Outcome.returned →
      USRP.start t2 (u.start t1).state = ⟨(u.start t1).state, [], Outcome.returned⟩ :=
    fun hok => start_running t2 _ (start_state_running t1 u hok)
  exact ⟨andThen_noop _ _ (fun _ => hstop), andThen_noop _ _ hstart, hstop, hstart⟩

theorem lifecycle_idempotent_witness :
    ((USRP.construct ⟨false, false⟩ ⟨false, false⟩ (2000000 : ℚ) 100 200).start (fun _ => false)).outcome =
      Outcome.returned ∧
    USRP.start (fun _ => false)
        ((USRP.construct ⟨false, false⟩ ⟨false, false⟩ (2000000 : ℚ) 100 200).start (fun _ => false)).state =
      ⟨((USRP.construct ⟨false, false⟩ ⟨false, false⟩ (2000000 : ℚ) 100 200).start (fun _ => false)).state, [],
       Outcome.returned⟩ :=
  ⟨rfl,
   (lifecycle_idempotent (USRP.construct ⟨false, false⟩ ⟨false, false⟩ (2000000 : ℚ) 100 200)
      (fun _ => false) (fun _ => false)).2.2.2 rfl⟩

/-- C4: when `make` or one of the eight RF-parameter calls throws during `start()` on
an engine that is not running, the exception of the first throwing call leaves
`start()`, `running` is still false, no worker has been spawned and neither thread
member has become joinable. -/
theorem start_failure (throws : DevCall α → Bool) (u : USRP α)
    (hrun : u.running = false)
    (hfail : throws (DevCall.make "type=b200") = true ∨
      ∃ c ∈ u.rfParameters, throws c = true) :
    (∃ c, (u.start throws).outcome = Outcome.threw c ∧ throws c = true ∧
      (c = DevCall.make "type=b200" ∨ c ∈ u.rfParameters)) ∧
    (u.start throws).state.running = false ∧
    (∀ a ∈ (u.start throws).trace, a.isSpawn = false) ∧
    (u.start throws).state.rxWorkerThread = u.rxWorkerThread ∧
    (u.start throws).state.txWorkerThread = u.txWorkerThread := by
  unfold USRP.start
  rw [if_neg (by simp [hrun])]
  by_cases hm : throws (DevCall.make "type=b200") = true
  · rw [if_pos hm]
    exact ⟨⟨_, rfl, hm, Or.inl rfl⟩, hrun, by simp [Action.isSpawn], rfl, rfl⟩
  · rw [if_neg hm]
    have hex : ∃ c ∈ u.rfParameters, throws c = true := by
      rcases hfail with h | h
      · exact absurd h hm
      · exact h
    obtain ⟨c, h1, h2, h3⟩ := perform_some throws u.rfParameters hex
    rcases hp : perform throws u.rfParameters with ⟨done, o⟩
    rw [hp] at h1
    simp only at h1
    subst h1
    refine ⟨⟨c, rfl, h2, Or.inr h3⟩, hrun, ?_, rfl, rfl⟩
    intro a ha
    simp only [List.mem_cons, List.mem_map] at ha
    rcases ha with rfl | ⟨d, _, rfl⟩ <;> rfl

theorem start_failure_witness :
    (USRP.construct ⟨false, false⟩ ⟨false, false⟩ (2000000 : ℚ) 100 200).running = false ∧
    ((USRP.construct ⟨false, false⟩ ⟨false, false⟩ (2000000 : ℚ) 100 200).start (fun _ => true)).state.running =
      false :=
  ⟨rfl,
   (start_failure (fun _ => true) (USRP.construct ⟨false, false⟩ ⟨false, false⟩ (2000000 : ℚ) 100 200) rfl
      (Or.inl rfl)).2.1⟩

theorem reachable_threads (u : USRP α) (h : Reachable u) :
    u.rxWorkerThread = u.running ∧ u.txWorkerThread = u.running := by
  induction h with
  | construct a b sr rf tf => exact ⟨rfl, rfl⟩
  | start throws u _ ih =>
    obtain ⟨h1, h2⟩ := ih
    cases hr : u.running
    · rw [hr] at h1 h2
      unfold USRP.start
      rw [if_neg (by simp [hr])]
      by_cases hm : throws (DevCall.make "type=b200") = true
      · rw [if_pos hm]; simp [h1, h2, hr]
      · rw [if_neg hm]
        rcases perform throws u.rfParameters with ⟨done, _ | c⟩
        · simp [h1, h2]
        · simp [h1, h2, hr]
    · rw [start_running throws u hr]; exact ⟨h1, h2⟩
  | stop u _ ih =>
    cases hr : u.running
    · rw [stop_not_running u hr]; exact ih
    · simp [USRP.stop, hr]

/-- C6: on a running engine (one reached from a constructed engine by `start`/`stop`
calls, with `running` true) `stop()` performs, in this order, `in->stopReader()`,
`out.stopWriter()`, the join of the receive thread, the join of the transmit thread,
`in->clearReadStop()`, `out.clearWriteStop()`, `running = false`, and returns with the
read-stop flag of `in` and the write-stop flag of `out` cleared and `running` false; on an engine that is not running
`stop()` performs no action and changes nothing. -/
theorem stop_sequence (u : USRP α) (hreach : Reachable u) :
    (u.running = true →
      u.stop =
        ⟨{ u with in_ := { u.in_ with readerStop := false },
                  out := { u.out with writerStop := false },
                  rxWorkerThread := false, txWorkerThread := false, running := false },
         [Action.in_stopReader, Action.out_stopWriter, Action.join Worker.rxWorker,
          Action.join Worker.txWorker, Action.in_clearReadStop, Action.out_clearWriteStop,
          Action.set_running false],
         Outcome.returned⟩) ∧
    (u.running = false → u.stop = ⟨u, [], Outcome.returned⟩) := by
  obtain ⟨h1, h2⟩ := reachable_threads u hreach
  refine ⟨fun hr => ?_, stop_not_running u⟩
  rw [hr] at h1 h2
  simp [USRP.stop, hr, h1, h2, stream.stopReader, stream.stopWriter, stream.clearReadStop,
    stream.clearWriteStop]

theorem stop_sequence_witness :
    Reachable ((USRP.construct ⟨false, false⟩ ⟨false, false⟩ (2000000 : ℚ) 100 200).start (fun _ => false)).state ∧
    (((USRP.construct ⟨false, false⟩ ⟨false, false⟩ (2000000 : ℚ) 100 200).start (fun _ => false)).state.stop).trace =
      [Action.in_stopReader, Action.out_stopWriter, Action.join Worker.rxWorker,
       Action.join Worker.txWorker, Action.in_clearReadStop, Action.out_clearWriteStop,
       Action.set_running false] :=
  ⟨Reachable.start _ _ (Reachable.construct _ _ _ _ _),
   congrArg Run.trace
     ((stop_sequence _ (Reachable.start (fun _ => false) _
        (Reachable.construct ⟨false, false⟩ ⟨false, false⟩ (2000000 : ℚ) 100 200))).1 rfl)⟩

/-- C10: a `start()` that returns from a not-running engine spawns the receive worker,
then the transmit worker, and only then sets `running = true`; a worker whose first
evaluation of its loop guard sees `running = false` runs no iteration: `txWorker` makes
no `read` and sends only the zero-length end-of-burst block, and `rxWorker` issues
START_CONTINUOUS immediately followed by STOP_CONTINUOUS and publishes nothing. -/
theorem spawn_before_running (throws : DevCall α → Bool) (u : USRP α) (S : ℤ)
    (tst : TxStep α) (trest : List (TxStep α)) (rst : RxStep) (rrest : List RxStep)
    (hu : u.running = false) (hok : (u.start throws).outcome = Outcome.returned)
    (htx : tst.running = false) (hrx : rst.running = false) :
    (u.start throws).trace =
      Action.dev (DevCall.make "type=b200") ::
        (u.rfParameters.map Action.dev ++
          [Action.spawn Worker.rxWorker, Action.spawn Worker.txWorker,
           Action.set_running true]) ∧
    txWorker S ⟨true, tst :: trest⟩ =
      ([TxEvent.get_tx_stream, TxEvent.send [] 0 ⟨false, true⟩], Outcome.returned) ∧
    rxWorker u.samplerate (rst :: rrest) =
      ([RxEvent.get_rx_stream,
        RxEvent.issue_stream_cmd stream_mode_t.STREAM_MODE_START_CONTINUOUS,
        RxEvent.issue_stream_cmd stream_mode_t.STREAM_MODE_STOP_CONTINUOUS],
       Outcome.returned) := by
  refine ⟨?_, ?_, ?_⟩
  · rw [start_returned throws u hu hok]
  · simp [txWorker, txLoop, htx]
  · simp [rxWorker, rxLoop, hrx]

theorem spawn_before_running_witness :
    txWorker (1000000 : ℤ)
        (⟨true, (⟨false, 7, fun _ => (0 : ℚ)⟩ : TxStep ℚ) :: []⟩ : TxEnv ℚ) =
      ([TxEvent.get_tx_stream, TxEvent.send [] 0 ⟨false, true⟩], Outcome.returned) :=
  (spawn_before_running (fun _ => false) (USRP.construct ⟨false, false⟩ ⟨false, false⟩ (2000000 : ℚ) 100 200)
      1000000 ⟨false, 7, fun _ => (0 : ℚ)⟩ [] ⟨false, 3, fun _ => 0, true⟩ [] rfl rfl rfl
      rfl).2.1

end RyFi
